import Mathlib

/-!
# Verification of the E2E_Chat encryption core

Shallow embedding of the crypto module (`src/utils/crypto`, concatenated at the
end of `src/screens/ChatScreen.tsx`), the message send/decrypt logic of
`ChatScreen`, the escrow loader `getStoredKeypairForUser`, and the unlock-retry
lockout logic of `src/navigation/index.tsx`.

Modelling conventions:
* Byte strings (keys, nonces, ciphertexts, file data) are `Nat`.
* Base64 text crossing the wire is an injective colon-free rendering of a `Nat`
  (`encB64`); base64 encode/decode of bare keys at function boundaries is
  elided (identity), since the claims do not exercise key-encoding failures.
* X25519 (`nacl.box.keyPair` / `nacl.box.before`) is modelled as modular
  exponentiation in a fixed group: it is deterministic and symmetric exactly
  as the scalar-multiplication the code relies on.
* XSalsa20-Poly1305 (`nacl.secretbox` / `nacl.secretbox.open`) is modelled as
  an ideal authenticated cipher: the ciphertext determines key, nonce and
  message, and `open` succeeds iff key and nonce match the ones used at
  encryption time (the Poly1305 tag check, idealized).
* SHA-256 (`Crypto.digestStringAsync`) is modelled as a free term constructor,
  i.e. an ideal collision-free hash; the hex-to-byte truncation in
  `deriveKeyFromPassword` reads all 64 hex characters of the digest and is a
  bijection on digests, so it is elided.
* JavaScript's `String.prototype.split(':')` is embedded as `jsSplit`.
* Randomness drawn inside a function (salts, nonces, ephemeral keypairs) is
  passed in as explicit parameters.
-/

/-! ## Wire encoding: injective, colon-free rendering of byte strings -/

/-- Little-endian bijective base-2 digits of `n` (`'0'`/`'1'` alphabet), with
explicit fuel for structural recursion; `fuel ≥ n` suffices. -/
def nbAux : Nat → Nat → List Char
  | _, 0 => []
  | 0, _ + 1 => []
  | f + 1, n + 1 => (if n % 2 = 0 then '0' else '1') :: nbAux f (n / 2)

/-- Model of base64-encoding a byte string (`naclUtil.encodeBase64`):
an injective rendering of the bytes into a colon-free text alphabet. -/
def encB64 (n : Nat) : String := String.mk (nbAux n n)

/-- Decode one digit list back to a `Nat`; `none` on a character outside the
alphabet. -/
def nbDec : List Char → Option Nat
  | [] => some 0
  | c :: cs =>
    match nbDec cs with
    | none => none
    | some m =>
      if c = '0' then some (0 + 1 + 2 * m)
      else if c = '1' then some (1 + 1 + 2 * m)
      else none

/-- Model of base64-decoding (`naclUtil.decodeBase64`); fails on text that is
not a rendering of a byte string. -/
def decB64 (s : String) : Option Nat := nbDec s.data

/-- Little-endian digits of a character list in bijective base `2^32 + 1`
(digit of `c` is `c.toNat + 1`): an injective embedding of strings into byte
strings, modelling `naclUtil.decodeUTF8`. -/
def lcToNat : List Char → Nat
  | [] => 0
  | c :: cs => (c.toNat + 1) + 4294967297 * lcToNat cs

/-- `naclUtil.decodeUTF8`: plaintext string to byte string. -/
def strToNat (s : String) : Nat := lcToNat s.data

/-- Inverse digit extraction for `lcToNat`, fuelled; `fuel ≥ n` suffices. -/
def natToLc : Nat → Nat → List Char
  | _, 0 => []
  | 0, _ + 1 => []
  | f + 1, n + 1 => Char.ofNat (n % 4294967297) :: natToLc f (n / 4294967297)

/-- `naclUtil.encodeUTF8`: byte string back to a plaintext string. -/
def natToStr (n : Nat) : String := String.mk (natToLc n n)

/-- `splitCh l` is JavaScript's `String.prototype.split(':')` on the character
list `l`. -/
def splitCh : List Char → List (List Char)
  | [] => [[]]
  | c :: cs =>
    if c = ':' then [] :: splitCh cs
    else
      match splitCh cs with
      | [] => [[c]]
      | h :: t => (c :: h) :: t

/-- JavaScript `s.split(':')`. -/
def jsSplit (s : String) : List String := (splitCh s.data).map String.mk

/-! ## Primitive layer: X25519 and XSalsa20-Poly1305 models -/

/-- Modulus of the model group standing in for Curve25519. -/
def curveP : Nat := 251

/-- Generator of the model group (stands in for the X25519 base point). -/
def curveG : Nat := 7

/-- Public key derived from a private scalar
(`nacl.box.keyPair.fromSecretKey`): fixed-base scalar multiplication. -/
def pubOf (privateKey : Nat) : Nat := curveG ^ privateKey % curveP

/-- `Keypair` from `src/types`: base64 public/private key strings; the public
key is `none` when the stored string is empty (JS falsy). -/
structure Keypair where
  publicKey : Option Nat
  privateKey : Nat
  deriving DecidableEq, Repr

/-- `nacl.box.keyPair()` at an explicit random seed: an honestly generated
identity (or ephemeral) keypair, as `generateIdentityKeypair` returns. -/
def kpOf (seed : Nat) : Keypair := ⟨some (pubOf seed), seed⟩

/-- `deriveSharedKey` (and `deriveSessionKey`): `nacl.box.before(remotePub,
localPriv)`, i.e. X25519 Diffie–Hellman between a local private key and a
remote public key. -/
def deriveSharedKey (localPrivate remotePublic : Nat) : Nat :=
  remotePublic ^ localPrivate % curveP

/-- `nacl.secretbox(msg, nonce, key)` for `Nat`-typed (session/shared) keys:
the ideal ciphertext packs key, nonce and message. -/
def secretboxN (msg nonce key : Nat) : Nat := Nat.pair key (Nat.pair nonce msg)

/-- `nacl.secretbox.open(c, nonce, key)`: the tag check succeeds iff the key
and nonce match those used at encryption; on failure no plaintext is
produced. -/
def secretboxOpenN (c nonce key : Nat) : Option Nat :=
  if (Nat.unpair c).1 = key ∧ (Nat.unpair (Nat.unpair c).2).1 = nonce then
    some (Nat.unpair (Nat.unpair c).2).2
  else none

/-! ## Password-based key wrapping -/

/-- Hash-term algebra: SHA-256 hex digests (`Crypto.digestStringAsync`)
modelled as a free constructor over the strings fed to them. `str` is a plain
string, `cat k s` is a digest hex string concatenated with a plain string,
`dig` is one SHA-256 application. -/
inductive HStr where
  | str : String → HStr
  | cat : HStr → String → HStr
  | dig : HStr → HStr
  deriving DecidableEq, Repr

/-- `deriveKeyFromPassword(password, salt)`: one SHA-256 of `password + salt`,
then a loop of exactly 1000 further SHA-256 applications of `key + salt`
(`for (let i = 0; i < 1000; i++)`), then the 64 hex characters are read back
into the 32 wrapping-key bytes (a bijection on digests, elided). -/
def deriveKeyFromPassword (password salt : String) : HStr :=
  (fun key => HStr.dig (HStr.cat key salt))^[1000]
    (HStr.dig (HStr.str (password ++ salt)))

/-- Number of sequential SHA-256 invocations that produced a hash term. -/
def digCount : HStr → Nat
  | .str _ => 0
  | .cat k _ => digCount k
  | .dig k => digCount k + 1

/-- Ideal ciphertext of `nacl.secretbox` under a password-derived key. -/
structure SBoxH where
  key : HStr
  nonce : Nat
  msg : Nat
  deriving DecidableEq, Repr

/-- `nacl.secretbox` for password-derived keys. -/
def secretboxH (msg : Nat) (nonce : Nat) (key : HStr) : SBoxH := ⟨key, nonce, msg⟩

/-- `nacl.secretbox.open` for password-derived keys. -/
def secretboxHOpen (c : SBoxH) (nonce : Nat) (key : HStr) : Option Nat :=
  if c.key = key ∧ c.nonce = nonce then some c.msg else none

/-- The `{encryptedKey, salt, nonce}` escrow blob stored in
`users.encrypted_private_key`. -/
structure WrappedKey where
  encryptedKey : SBoxH
  salt : String
  nonce : Nat
  deriving DecidableEq, Repr

/-- `encryptPrivateKeyWithPassword(privateKey, password)` at an explicit
random salt and nonce: derive the wrapping key, secretbox the private key. -/
def encryptPrivateKeyWithPassword (privateKey : Nat) (password : String)
    (saltR : String) (nonceR : Nat) : WrappedKey :=
  let derivedKey := deriveKeyFromPassword password saltR
  { encryptedKey := secretboxH privateKey nonceR derivedKey
    salt := saltR
    nonce := nonceR }

/-- `decryptPrivateKeyWithPassword(encryptedKey, salt, nonce, password)`:
rederive the wrapping key and open; a failed open throws
`Failed to decrypt private key. Wrong password?`. -/
def decryptPrivateKeyWithPassword (encryptedKey : SBoxH) (salt : String)
    (nonce : Nat) (password : String) : Except String Nat :=
  let derivedKey := deriveKeyFromPassword password salt
  match secretboxHOpen encryptedKey nonce derivedKey with
  | some pk => .ok pk
  | none => .error "Failed to decrypt private key. Wrong password?"

/-! ## Identity key manager: escrow load with validation -/

/-- The columns of the `users` row that `getStoredKeypairForUser` selects;
`public_key = none` models a missing/empty (JS falsy) stored public key. -/
structure DbUser where
  public_key : Option Nat
  encrypted_private_key : Option WrappedKey
  deriving DecidableEq, Repr

/-- `getStoredKeypairForUser(userId, password?, supabase?)`.
`password`/`db` is the `password && supabase` branch (PRIORITY 1): fetch the
escrow row, decrypt (errors propagate — the outer catch rethrows), then
validate the derived public key against the on-record one, but only when the
on-record key is truthy (`if (publicKey && derivedPubB64 !== publicKey)`).
Otherwise (PRIORITY 2) fall back to the local secure-store cache `localKp`;
absence of both yields `none`. -/
def getStoredKeypairForUser (password : Option String) (db : Option DbUser)
    (localKp : Option Keypair) : Except String (Option Keypair) :=
  match password, db with
  | some pw, some row =>
    match row.encrypted_private_key with
    | some esc =>
      match decryptPrivateKeyWithPassword esc.encryptedKey esc.salt esc.nonce pw with
      | .error e => .error e
      | .ok privateKey =>
        match row.public_key with
        | some pk =>
          if pubOf privateKey ≠ pk then
            .error "Failed to validate decrypted private key. Wrong password?"
          else .ok (some ⟨some pk, privateKey⟩)
        | none => .ok (some ⟨none, privateKey⟩)
    | none => .ok localKp
  | _, _ => .ok localKp

/-! ## Message and file envelope codecs -/

/-- `EncryptedMessage` from `src/types`: base64 ciphertext and nonce, plus the
ephemeral public key when produced by the forward-secrecy path. -/
structure EncryptedMessage where
  ciphertext : String
  nonce : String
  ephemeralPublicKey : Option Nat := none
  deriving DecidableEq, Repr

/-- `encryptMessage(symKey, plaintext)` at an explicit random nonce:
secretbox the UTF-8 bytes, base64 both ciphertext and nonce. -/
def encryptMessage (symKey : Nat) (plaintext : String) (nonceR : Nat) :
    EncryptedMessage :=
  { ciphertext := encB64 (secretboxN (strToNat plaintext) nonceR symKey)
    nonce := encB64 nonceR }

/-- `decryptMessage(symKey, ciphertextB64, nonceB64)` (crypto util): base64
decode, open, and throw `Decryption failed` when the tag check fails. -/
def decryptMessage (symKey : Nat) (ciphertextB64 nonceB64 : String) :
    Except String String :=
  match decB64 ciphertextB64, decB64 nonceB64 with
  | some cipher, some nonce =>
    match secretboxOpenN cipher nonce symKey with
    | some m => .ok (natToStr m)
    | none => .error "Decryption failed"
  | _, _ => .error "invalid encoding"

/-- `encryptMessageWithEphemeral(recipientPublicKeyB64, plaintext)` at an
explicit ephemeral seed and nonce: generate a fresh ephemeral keypair, derive
the shared key with the recipient, encrypt, and attach the ephemeral public
key. -/
def encryptMessageWithEphemeral (recipientPublicKey : Nat) (plaintext : String)
    (ephSeed nonceR : Nat) : EncryptedMessage :=
  let ephemeralKeypair := kpOf ephSeed
  let symKey := deriveSharedKey ephemeralKeypair.privateKey recipientPublicKey
  let encrypted := encryptMessage symKey plaintext nonceR
  { encrypted with ephemeralPublicKey := ephemeralKeypair.publicKey }

/-- `decryptMessageWithEphemeral(localPrivateKeyB64, ephemeralPublicKeyB64,
ciphertextB64, nonceB64)`: derive the shared key from the local private key
and the ephemeral public key, then decrypt. -/
def decryptMessageWithEphemeral (localPrivateKey ephemeralPublicKey : Nat)
    (ciphertextB64 nonceB64 : String) : Except String String :=
  decryptMessage (deriveSharedKey localPrivateKey ephemeralPublicKey)
    ciphertextB64 nonceB64

/-- Result record of `encryptFileData`. -/
structure FileCipher where
  ciphertext : String
  nonce : String
  deriving DecidableEq, Repr

/-- `encryptFileData(symKey, fileData)` at an explicit random nonce. -/
def encryptFileData (symKey : Nat) (fileData : Nat) (nonceR : Nat) : FileCipher :=
  { ciphertext := encB64 (secretboxN fileData nonceR symKey)
    nonce := encB64 nonceR }

/-- `decryptFileData(symKey, ciphertextB64, nonceB64)`: base64 decode, open,
and throw `File decryption failed` when the tag check fails. -/
def decryptFileData (symKey : Nat) (ciphertextB64 nonceB64 : String) :
    Except String Nat :=
  match decB64 ciphertextB64, decB64 nonceB64 with
  | some cipher, some nonce =>
    match secretboxOpenN cipher nonce symKey with
    | some m => .ok m
    | none => .error "File decryption failed"
  | _, _ => .error "invalid encoding"

/-! ## ChatScreen: send and decrypt flow -/

/-- The message-record fields `sendMessage` inserts and `decryptMessage`
(screen) reads. Optional fields model missing/empty (JS falsy) columns. -/
structure Message where
  id : Nat
  sender : Nat
  ciphertext : String
  ephemeral_pubkey : Option Nat
  ciphertext_sender : Option String
  ephemeral_pubkey_sender : Option Nat
  deriving DecidableEq, Repr

/-- `sendMessage` (ChatScreen), at explicit ephemeral seeds/nonces: encrypt
the plaintext once for the recipient and once for the sender with two
independent ephemeral keypairs, join each ciphertext and nonce as
`"<ciphertext>:<nonce>"`, and insert both envelopes on one record. -/
def sendMessageRecord (msgId senderId : Nat) (recipientPublicKey senderPublicKey : Nat)
    (plaintext : String) (e1 n1 e2 n2 : Nat) : Message :=
  let encryptedForRecipient := encryptMessageWithEphemeral recipientPublicKey plaintext e1 n1
  let encryptedForSender := encryptMessageWithEphemeral senderPublicKey plaintext e2 n2
  { id := msgId
    sender := senderId
    ciphertext := encryptedForRecipient.ciphertext ++ ":" ++ encryptedForRecipient.nonce
    ephemeral_pubkey := encryptedForRecipient.ephemeralPublicKey
    ciphertext_sender :=
      some (encryptedForSender.ciphertext ++ ":" ++ encryptedForSender.nonce)
    ephemeral_pubkey_sender := encryptedForSender.ephemeralPublicKey }

/-- The rendered item `decryptMessage` (screen) returns for one message. -/
structure DecryptedItem where
  decryptedText : String
  decryptError : Bool
  deriving DecidableEq, Repr

/-- Observable outcome of one screen-level `decryptMessage` call: the rendered
item, the keypair generated and persisted by the regeneration branch (if
taken), the public key written to the remote `users` row (if any), and the
number of symmetric `open` operations attempted on message envelopes. -/
structure DecryptOutcome where
  item : DecryptedItem
  regen : Option Keypair
  publishedKey : Option Nat
  openCalls : Nat
  deriving DecidableEq, Repr

/-- `decryptMessage` (ChatScreen). Resolves the current user's keypair via
`getStoredKeypairForUser` (passing `supabase` only when a session password is
present); resolution errors fall into the outer catch (`[Decryption failed]`).
If no keypair resolves, generates a fresh identity keypair from `regenSeed`,
persists it, publishes its public key to the `users` row, and marks the
message undecryptable. Own messages try the sent-plaintext cache, then the
sender envelope; others use the recipient envelope. A ciphertext field that
does not split on `':'` into exactly two parts throws before any decryption
of it, landing in the outer catch. -/
def decryptMessageScreen (currentUserId : Nat) (sessionPassword : Option String)
    (db : Option DbUser) (localKp : Option Keypair) (regenSeed : Nat)
    (cache : Nat → Option String) (msg : Message) : DecryptOutcome :=
  match getStoredKeypairForUser sessionPassword
      (if sessionPassword.isSome then db else none) localKp with
  | .error _ => ⟨⟨"[Decryption failed]", true⟩, none, none, 0⟩
  | .ok none =>
    ⟨⟨"[Unable to decrypt - new keys generated]", true⟩, some (kpOf regenSeed),
      some (pubOf regenSeed), 0⟩
  | .ok (some keypair) =>
    if msg.sender = currentUserId then
      match cache msg.id with
      | some cached => ⟨⟨cached, false⟩, none, none, 0⟩
      | none =>
        match msg.ciphertext_sender, msg.ephemeral_pubkey_sender with
        | some cs, some ephS =>
          if cs = "" then
            ⟨⟨"[Unable to decrypt - no sender copy]", true⟩, none, none, 0⟩
          else
            match jsSplit cs with
            | [ciphertext, nonce] =>
              (match decryptMessageWithEphemeral keypair.privateKey ephS
                  ciphertext nonce with
              | .ok t => ⟨⟨t, false⟩, none, none, 1⟩
              | .error _ => ⟨⟨"[Decryption failed]", true⟩, none, none, 1⟩)
            | _ => ⟨⟨"[Decryption failed]", true⟩, none, none, 0⟩
        | _, _ => ⟨⟨"[Unable to decrypt - no sender copy]", true⟩, none, none, 0⟩
    else
      match msg.ephemeral_pubkey with
      | none => ⟨⟨"[Unable to decrypt - no ephemeral key]", true⟩, none, none, 0⟩
      | some eph =>
        match jsSplit msg.ciphertext with
        | [ciphertext, nonce] =>
          (match decryptMessageWithEphemeral keypair.privateKey eph
              ciphertext nonce with
          | .ok t => ⟨⟨t, false⟩, none, none, 1⟩
          | .error _ => ⟨⟨"[Decryption failed]", true⟩, none, none, 1⟩)
        | _ => ⟨⟨"[Decryption failed]", true⟩, none, none, 0⟩

/-! ## Lockout / self-destruct retry logic (`src/navigation/index.tsx`) -/

/-- The unlock-retry state: `attempts` is the `retryAttempts` React state;
`wipes` counts how many times the self-destruct sequence
(`wipeAllUserData` + `removeKeypairForUser` + `signOut`) has been started. -/
structure RetryState where
  attempts : Nat
  wipes : Nat
  deriving DecidableEq, Repr

/-- One press of the Retry button: a successful unlock sets `retryAttempts`
to 0; a failure increments it (`next = prev + 1`) and, when `next >= 3`,
starts the erasure sequence — without resetting the counter. -/
def retryStep (s : RetryState) (success : Bool) : RetryState :=
  if success then { attempts := 0, wipes := s.wipes }
  else
    { attempts := s.attempts + 1
      wipes := if s.attempts + 1 ≥ 3 then s.wipes + 1 else s.wipes }

/-- Run a sequence of unlock outcomes through the retry handler. -/
def runRetries (s : RetryState) (events : List Bool) : RetryState :=
  events.foldl retryStep s

/-! ## Lemmas: wire codec -/

theorem nbDec_nbAux (f : Nat) : ∀ n : Nat, n ≤ f → nbDec (nbAux f n) = some n := by
  induction f with
  | zero =>
    intro n hn
    interval_cases n
    simp [nbAux, nbDec]
  | succ f ih =>
    intro n hn
    match n with
    | 0 => simp [nbAux, nbDec]
    | k + 1 =>
      have hk : k / 2 ≤ f := le_trans (Nat.div_le_self k 2) (Nat.le_of_succ_le_succ hn)
      by_cases h2 : k % 2 = 0
      · have : (0 : Nat) + 1 + 2 * (k / 2) = k + 1 := by omega
        simp [nbAux, nbDec, h2, ih _ hk, this]
      · have h1 : k % 2 = 1 := Nat.mod_two_eq_zero_or_one k |>.resolve_left h2
        have : (1 : Nat) + 1 + 2 * (k / 2) = k + 1 := by omega
        simp [nbAux, nbDec, h2, ih _ hk, this]

theorem decB64_encB64 (n : Nat) : decB64 (encB64 n) = some n :=
  nbDec_nbAux n n le_rfl

theorem encB64_inj {a b : Nat} (h : encB64 a = encB64 b) : a = b := by
  have := decB64_encB64 a
  rw [h, decB64_encB64 b] at this
  exact (Option.some.injEq _ _ ▸ this).symm

theorem nbAux_mem (f : Nat) : ∀ n : Nat, ∀ c ∈ nbAux f n, c = '0' ∨ c = '1' := by
  induction f with
  | zero =>
    intro n c hc
    match n with
    | 0 => simp [nbAux] at hc
    | _ + 1 => simp [nbAux] at hc
  | succ f ih =>
    intro n c hc
    match n with
    | 0 => simp [nbAux] at hc
    | k + 1 =>
      simp only [nbAux, List.mem_cons] at hc
      rcases hc with hc | hc
      · by_cases h2 : k % 2 = 0 <;> simp [h2] at hc <;> simp [hc]
      · exact ih _ c hc

theorem encB64_no_colon (n : Nat) : ':' ∉ (encB64 n).data := by
  intro hmem
  rcases nbAux_mem n n ':' hmem with h | h <;> simp at h

theorem splitCh_no_colon (l : List Char) (h : ':' ∉ l) : splitCh l = [l] := by
  induction l with
  | nil => simp [splitCh]
  | cons c cs ih =>
    have hc : ¬ c = ':' := fun hc => h (hc ▸ List.mem_cons_self c cs)
    have hcs : ':' ∉ cs := fun hm => h (List.mem_cons_of_mem c hm)
    simp [splitCh, hc, ih hcs]

theorem splitCh_append (l₁ l₂ : List Char) (h : ':' ∉ l₁) :
    splitCh (l₁ ++ ':' :: l₂) = l₁ :: splitCh l₂ := by
  induction l₁ with
  | nil => simp [splitCh]
  | cons c cs ih =>
    have hc : ¬ c = ':' := fun hc => h (hc ▸ List.mem_cons_self c cs)
    have hcs : ':' ∉ cs := fun hm => h (List.mem_cons_of_mem c hm)
    simp only [List.cons_append, splitCh, if_neg hc, List.append_eq, ih hcs]

theorem jsSplit_join (x y : Nat) :
    jsSplit (encB64 x ++ ":" ++ encB64 y) = [encB64 x, encB64 y] := by
  have hdata : (encB64 x ++ ":" ++ encB64 y).data
      = (encB64 x).data ++ ':' :: (encB64 y).data := by
    simp [String.data_append]
  unfold jsSplit
  rw [hdata, splitCh_append _ _ (encB64_no_colon x),
    splitCh_no_colon _ (encB64_no_colon y)]
  simp [String.mk]

theorem join_ne_empty (x y : Nat) : encB64 x ++ ":" ++ encB64 y ≠ "" := by
  intro h
  have := congrArg String.data h
  rw [String.data_append, String.data_append] at this
  simp at this

theorem char_toNat_lt (c : Char) : c.toNat < 4294967297 :=
  lt_trans (UInt32.toNat_lt_size c.val) (by norm_num [UInt32.size])

theorem natToLc_lcToNat (f : Nat) : ∀ l : List Char, lcToNat l ≤ f →
    natToLc f (lcToNat l) = l := by
  induction f with
  | zero =>
    intro l hl
    match l with
    | [] => simp [lcToNat, natToLc]
    | c :: cs => simp [lcToNat] at hl
  | succ f ih =>
    intro l hl
    match l with
    | [] => simp [lcToNat, natToLc]
    | c :: cs =>
      have hc : c.toNat < 4294967297 := char_toNat_lt c
      have hval : lcToNat (c :: cs) = (c.toNat + 4294967297 * lcToNat cs) + 1 := by
        simp [lcToNat]; omega
      have hmod : (c.toNat + 4294967297 * lcToNat cs) % 4294967297 = c.toNat := by
        rw [Nat.add_mul_mod_self_left, Nat.mod_eq_of_lt hc]
      have hdiv : (c.toNat + 4294967297 * lcToNat cs) / 4294967297 = lcToNat cs := by
        rw [Nat.add_mul_div_left _ _ (by norm_num : (0:Nat) < 4294967297),
          Nat.div_eq_of_lt hc, Nat.zero_add]
      have hcs : lcToNat cs ≤ f := by
        have h1 : lcToNat cs ≤ 4294967297 * lcToNat cs := by
          have := Nat.le_mul_of_pos_left (lcToNat cs) (by norm_num : (0:Nat) < 4294967297)
          omega
        omega
      rw [hval]
      show Char.ofNat ((c.toNat + 4294967297 * lcToNat cs) % 4294967297)
          :: natToLc f ((c.toNat + 4294967297 * lcToNat cs) / 4294967297) = c :: cs
      rw [hmod, hdiv, Char.ofNat_toNat, ih cs hcs]

theorem natToStr_strToNat (s : String) : natToStr (strToNat s) = s := by
  unfold natToStr strToNat
  rw [natToLc_lcToNat _ s.data le_rfl]

/-! ## Lemmas: ideal cipher and Diffie–Hellman model -/

theorem secretboxOpenN_secretboxN (m n k n' k' : Nat) :
    secretboxOpenN (secretboxN m n k) n' k'
      = if k = k' ∧ n = n' then some m else none := by
  simp [secretboxOpenN, secretboxN, Nat.unpair_pair]

theorem deriveSharedKey_symm (a b : Nat) :
    deriveSharedKey a (pubOf b) = deriveSharedKey b (pubOf a) := by
  unfold deriveSharedKey pubOf
  rw [← Nat.pow_mod, ← Nat.pow_mod, ← pow_mul, ← pow_mul, mul_comm]

theorem decryptMessage_encryptMessage (symKey : Nat) (plaintext : String)
    (nonceR : Nat) :
    decryptMessage symKey (encryptMessage symKey plaintext nonceR).ciphertext
      (encryptMessage symKey plaintext nonceR).nonce = .ok plaintext := by
  simp [decryptMessage, encryptMessage, decB64_encB64, secretboxOpenN_secretboxN,
    natToStr_strToNat]

theorem decryptWithEphemeral_roundtrip (r : Nat) (plaintext : String)
    (ephSeed nonceR : Nat) :
    decryptMessageWithEphemeral r (pubOf ephSeed)
      (encryptMessageWithEphemeral (pubOf r) plaintext ephSeed nonceR).ciphertext
      (encryptMessageWithEphemeral (pubOf r) plaintext ephSeed nonceR).nonce
      = .ok plaintext := by
  unfold decryptMessageWithEphemeral encryptMessageWithEphemeral
  simp only [kpOf]
  rw [deriveSharedKey_symm r ephSeed]
  exact decryptMessage_encryptMessage _ plaintext nonceR

/-! ## Lemmas: password key derivation -/

theorem digCount_iterate (salt : String) (n : Nat) (k : HStr) :
    digCount ((fun key => HStr.dig (HStr.cat key salt))^[n] k) = n + digCount k := by
  induction n with
  | zero => simp
  | succ n ih =>
    rw [Function.iterate_succ_apply']
    simp [digCount, ih]
    omega

theorem deriveKeyFromPassword_inj (salt : String) :
    Function.Injective (fun password => deriveKeyFromPassword password salt) := by
  intro p₁ p₂ h
  have hstep : Function.Injective (fun key => HStr.dig (HStr.cat key salt)) := by
    intro k₁ k₂ hk
    simpa using hk
  have h2 := hstep.iterate 1000 h
  simp only [HStr.dig.injEq, HStr.str.injEq] at h2
  have h3 : (p₁ ++ salt).data = (p₂ ++ salt).data := congrArg String.data h2
  rw [String.data_append, String.data_append] at h3
  exact String.ext (List.append_cancel_right h3)

/-! ## Claim theorems -/

/-- C1: the wrapping key handed to `nacl.secretbox` by the password-based key
wrapping is produced by exactly 1001 sequential SHA-256 invocations (one
initial digest of `password + salt` plus a 1000-step loop), for every password
and salt — far below the claimed floor of 100,000 sequential hash iterations
(the code even declares `const iterations = 100000` but never uses it). -/
theorem claim_C1_iteration_count (password salt : String) :
    digCount (deriveKeyFromPassword password salt) = 1001
    ∧ digCount (deriveKeyFromPassword password salt) < 100000 := by
  have h : digCount (deriveKeyFromPassword password salt) = 1001 := by
    unfold deriveKeyFromPassword
    rw [digCount_iterate]
    rfl
  exact ⟨h, by omega⟩

/-- C2: unwrapping a password-wrapped private key with the same password
returns exactly the wrapped key, and unwrapping with any different password
fails with the explicit wrong-password error instead of returning a key. -/
theorem claim_C2_wrap_unwrap (privateKey : Nat) (password saltR : String)
    (nonceR : Nat) (password2 : String) (h : password2 ≠ password) :
    decryptPrivateKeyWithPassword
        (encryptPrivateKeyWithPassword privateKey password saltR nonceR).encryptedKey
        (encryptPrivateKeyWithPassword privateKey password saltR nonceR).salt
        (encryptPrivateKeyWithPassword privateKey password saltR nonceR).nonce
        password = .ok privateKey
    ∧ decryptPrivateKeyWithPassword
        (encryptPrivateKeyWithPassword privateKey password saltR nonceR).encryptedKey
        (encryptPrivateKeyWithPassword privateKey password saltR nonceR).salt
        (encryptPrivateKeyWithPassword privateKey password saltR nonceR).nonce
        password2 = .error "Failed to decrypt private key. Wrong password?" := by
  constructor
  · simp [decryptPrivateKeyWithPassword, encryptPrivateKeyWithPassword,
      secretboxH, secretboxHOpen]
  · have hne : deriveKeyFromPassword password saltR
        ≠ deriveKeyFromPassword password2 saltR := by
      intro he
      exact h (deriveKeyFromPassword_inj saltR he.symm)
    simp [decryptPrivateKeyWithPassword, encryptPrivateKeyWithPassword,
      secretboxH, secretboxHOpen, hne]

/-- Witness for C2 at a concrete private key, password pair and randomness. -/
theorem claim_C2_wrap_unwrap_witness :
    ("b" : String) ≠ "a"
    ∧ (decryptPrivateKeyWithPassword
        (encryptPrivateKeyWithPassword 1 "a" "s" 0).encryptedKey
        (encryptPrivateKeyWithPassword 1 "a" "s" 0).salt
        (encryptPrivateKeyWithPassword 1 "a" "s" 0).nonce
        "a" = .ok 1
      ∧ decryptPrivateKeyWithPassword
        (encryptPrivateKeyWithPassword 1 "a" "s" 0).encryptedKey
        (encryptPrivateKeyWithPassword 1 "a" "s" 0).salt
        (encryptPrivateKeyWithPassword 1 "a" "s" 0).nonce
        "b" = .error "Failed to decrypt private key. Wrong password?") :=
  ⟨by decide, claim_C2_wrap_unwrap 1 "a" "s" 0 "b" (by decide)⟩

/-- C4: encrypting any plaintext (including the empty string and strings with
embedded null characters) for an honestly generated keypair's public key with
a fresh ephemeral keypair, then decrypting the envelope with that keypair's
private key, yields exactly the plaintext. -/
theorem claim_C4_roundtrip (r : Nat) (plaintext : String) (ephSeed nonceR : Nat) :
    (encryptMessageWithEphemeral (pubOf r) plaintext ephSeed nonceR).ephemeralPublicKey
      = some (pubOf ephSeed)
    ∧ decryptMessageWithEphemeral r (pubOf ephSeed)
        (encryptMessageWithEphemeral (pubOf r) plaintext ephSeed nonceR).ciphertext
        (encryptMessageWithEphemeral (pubOf r) plaintext ephSeed nonceR).nonce
      = .ok plaintext :=
  ⟨rfl, decryptWithEphemeral_roundtrip r plaintext ephSeed nonceR⟩

/-- C6: the derived shared secret is symmetric in the two identity keypairs,
and a file encrypted under one participant's derived key decrypts to the
original bytes under the key the other participant derives independently. -/
theorem claim_C6_shared_secret (a b dataN nonceR : Nat) :
    deriveSharedKey a (pubOf b) = deriveSharedKey b (pubOf a)
    ∧ decryptFileData (deriveSharedKey b (pubOf a))
        (encryptFileData (deriveSharedKey a (pubOf b)) dataN nonceR).ciphertext
        (encryptFileData (deriveSharedKey a (pubOf b)) dataN nonceR).nonce
      = .ok dataN := by
  refine ⟨deriveSharedKey_symm a b, ?_⟩
  rw [← deriveSharedKey_symm a b]
  simp [decryptFileData, encryptFileData, decB64_encB64, secretboxOpenN_secretboxN]

/-- C7: `decryptMessage` and `decryptFileData` succeed exactly when the
authenticated-decryption check passes (key and nonce match the ones used at
encryption) and otherwise raise their explicit failure values, returning no
plaintext at all. -/
theorem claim_C7_fail_closed (k k' n n' : Nat) (P : String) (d : Nat) :
    decryptMessage k' (encB64 (secretboxN (strToNat P) n k)) (encB64 n')
      = (if k = k' ∧ n = n' then .ok P else .error "Decryption failed")
    ∧ decryptFileData k' (encB64 (secretboxN d n k)) (encB64 n')
      = (if k = k' ∧ n = n' then .ok d else .error "File decryption failed") := by
  constructor
  · simp only [decryptMessage, decB64_encB64, secretboxOpenN_secretboxN]
    by_cases h : k = k' ∧ n = n'
    · simp [h, natToStr_strToNat]
    · simp [h]
  · simp only [decryptFileData, decB64_encB64, secretboxOpenN_secretboxN]
    by_cases h : k = k' ∧ n = n'
    · simp [h]
    · simp [h]

/-- C9 counterexample: three consecutive failures from a fresh state trigger
one erasure sequence but leave the `retryAttempts` counter at 3 — the code
never resets it to zero after the wipe, contradicting the claim. -/
theorem claim_C9_counterexample :
    runRetries ⟨0, 0⟩ [false, false, false] = ⟨3, 1⟩
    ∧ (runRetries ⟨0, 0⟩ [false, false, false]).attempts ≠ 0 := by
  decide

/-- C9 (amended): from a zero counter, three consecutive wrong-password
outcomes trigger exactly one erasure sequence and leave the counter at the
threshold value 3 (it is not reset to zero); a successful unlock resets the
counter to zero, so two subsequent failures do not trigger erasure. -/
theorem claim_C9_lockout (w : Nat) (s : RetryState) :
    runRetries ⟨0, w⟩ [false, false, false] = ⟨3, w + 1⟩
    ∧ runRetries s [true, false, false] = ⟨2, s.wipes⟩ := by
  constructor
  · simp [runRetries, retryStep]
  · simp [runRetries, retryStep]

/-- C3 counterexample: when the account row's on-record public key is empty
(JS falsy), `getStoredKeypairForUser` skips the derived-public-key comparison
entirely and returns the unwrapped private key, even though the derived
public key (`some (pubOf 1)`) does not match the on-record value (`none`). -/
theorem claim_C3_counterexample :
    getStoredKeypairForUser (some "p")
        (some ⟨none, some (encryptPrivateKeyWithPassword 1 "p" "s" 0)⟩) none
      = .ok (some ⟨none, 1⟩)
    ∧ some (pubOf 1) ≠ (none : Option Nat) := by
  constructor
  · simp [getStoredKeypairForUser, encryptPrivateKeyWithPassword,
      decryptPrivateKeyWithPassword, secretboxH, secretboxHOpen]
  · simp

/-- C3 (amended): whenever the account row carries a non-empty on-record
public key, the validation step runs after a successful unwrap: any mismatch
between the public key derived from the recovered private key and the
on-record one is reported as the wrong-password failure and the unwrapped key
is not returned. (When the on-record public key is empty/missing, the check
is skipped and the key is returned unvalidated.) -/
theorem claim_C3_validation (password : String) (row : DbUser)
    (localKp : Option Keypair) (esc : WrappedKey) (privateKey pk : Nat)
    (henc : row.encrypted_private_key = some esc)
    (hdec : decryptPrivateKeyWithPassword esc.encryptedKey esc.salt esc.nonce
      password = .ok privateKey)
    (hpk : row.public_key = some pk)
    (hne : pubOf privateKey ≠ pk) :
    getStoredKeypairForUser (some password) (some row) localKp
      = .error "Failed to validate decrypted private key. Wrong password?" := by
  simp [getStoredKeypairForUser, henc, hdec, hpk, hne]

/-- Witness for the amended C3 at a concrete escrow record whose on-record
public key belongs to a different private key. -/
theorem claim_C3_validation_witness :
    (⟨some (pubOf 2), some (encryptPrivateKeyWithPassword 1 "p" "s" 0)⟩ : DbUser).encrypted_private_key
      = some (encryptPrivateKeyWithPassword 1 "p" "s" 0)
    ∧ decryptPrivateKeyWithPassword
        (encryptPrivateKeyWithPassword 1 "p" "s" 0).encryptedKey
        (encryptPrivateKeyWithPassword 1 "p" "s" 0).salt
        (encryptPrivateKeyWithPassword 1 "p" "s" 0).nonce "p" = .ok 1
    ∧ pubOf 1 ≠ pubOf 2
    ∧ getStoredKeypairForUser (some "p")
        (some ⟨some (pubOf 2), some (encryptPrivateKeyWithPassword 1 "p" "s" 0)⟩) none
      = .error "Failed to validate decrypted private key. Wrong password?" := by
  have hdec : decryptPrivateKeyWithPassword
      (encryptPrivateKeyWithPassword 1 "p" "s" 0).encryptedKey
      (encryptPrivateKeyWithPassword 1 "p" "s" 0).salt
      (encryptPrivateKeyWithPassword 1 "p" "s" 0).nonce "p" = .ok 1 := by
    simp [decryptPrivateKeyWithPassword, encryptPrivateKeyWithPassword,
      secretboxH, secretboxHOpen]
  have hne : pubOf 1 ≠ pubOf 2 := by decide
  exact ⟨rfl, hdec, hne,
    claim_C3_validation "p" _ none (encryptPrivateKeyWithPassword 1 "p" "s" 0)
      1 (pubOf 2) rfl hdec rfl hne⟩

/-- C10: when no keypair resolves for the current user (no usable escrow and
no local cache), the screen-level decrypt path generates a fresh identity
keypair from the ambient randomness, persists it, publishes its public key to
the remote `users` row, and returns the message marked as a decryption error
— a read operation that mutates the account's key material. -/
theorem claim_C10_regen (uid : Nat) (pw : Option String) (db : Option DbUser)
    (localKp : Option Keypair) (seed : Nat) (cache : Nat → Option String)
    (msg : Message)
    (hres : getStoredKeypairForUser pw (if pw.isSome then db else none) localKp
      = .ok none) :
    decryptMessageScreen uid pw db localKp seed cache msg
      = ⟨⟨"[Unable to decrypt - new keys generated]", true⟩, some (kpOf seed),
        some (pubOf seed), 0⟩ := by
  unfold decryptMessageScreen
  rw [hres]

/-- Witness for C10: with no session password, no escrow row and no local
cache, decrypting a message regenerates and publishes a new keypair. -/
theorem claim_C10_regen_witness :
    getStoredKeypairForUser none
        (if (none : Option String).isSome then (none : Option DbUser) else none) none
      = .ok none
    ∧ decryptMessageScreen 0 none none none 9 (fun _ => none)
        ⟨0, 1, "c", none, none, none⟩
      = ⟨⟨"[Unable to decrypt - new keys generated]", true⟩, some (kpOf 9),
        some (pubOf 9), 0⟩ :=
  ⟨rfl, claim_C10_regen 0 none none none 9 (fun _ => none)
    ⟨0, 1, "c", none, none, none⟩ rfl⟩

/-! ## Lemmas: screen-level decrypt paths -/

theorem decryptWithEphemeral_enc (r : Nat) (P : String) (e n : Nat) :
    decryptMessageWithEphemeral r (pubOf e)
      (encB64 (secretboxN (strToNat P) n (deriveSharedKey e (pubOf r))))
      (encB64 n) = .ok P :=
  decryptWithEphemeral_roundtrip r P e n

theorem decryptScreen_sender (uid : Nat) (pw : Option String) (db : Option DbUser)
    (localKp : Option Keypair) (seed : Nat) (cache : Nat → Option String)
    (msg : Message) (kp : Keypair) (cs : String) (ephS : Nat) (ct nn : String)
    (hres : getStoredKeypairForUser pw (if pw.isSome then db else none) localKp
      = .ok (some kp))
    (hsend : msg.sender = uid)
    (hcache : cache msg.id = none)
    (hcs : msg.ciphertext_sender = some cs)
    (hnempty : cs ≠ "")
    (hsplit : jsSplit cs = [ct, nn])
    (heph : msg.ephemeral_pubkey_sender = some ephS) :
    decryptMessageScreen uid pw db localKp seed cache msg
      = match decryptMessageWithEphemeral kp.privateKey ephS ct nn with
        | .ok t => ⟨⟨t, false⟩, none, none, 1⟩
        | .error _ => ⟨⟨"[Decryption failed]", true⟩, none, none, 1⟩ := by
  unfold decryptMessageScreen
  rw [hres, hsend, hcache, hcs, heph]
  simp [hnempty, hsplit]

theorem decryptScreen_recipient (uid : Nat) (pw : Option String) (db : Option DbUser)
    (localKp : Option Keypair) (seed : Nat) (cache : Nat → Option String)
    (msg : Message) (kp : Keypair) (eph : Nat) (ct nn : String)
    (hres : getStoredKeypairForUser pw (if pw.isSome then db else none) localKp
      = .ok (some kp))
    (hsend : msg.sender ≠ uid)
    (heph : msg.ephemeral_pubkey = some eph)
    (hsplit : jsSplit msg.ciphertext = [ct, nn]) :
    decryptMessageScreen uid pw db localKp seed cache msg
      = match decryptMessageWithEphemeral kp.privateKey eph ct nn with
        | .ok t => ⟨⟨t, false⟩, none, none, 1⟩
        | .error _ => ⟨⟨"[Decryption failed]", true⟩, none, none, 1⟩ := by
  unfold decryptMessageScreen
  rw [hres, heph]
  simp [hsend, hsplit]

theorem decryptScreen_recipient_reject (uid : Nat) (pw : Option String)
    (db : Option DbUser) (localKp : Option Keypair) (seed : Nat)
    (cache : Nat → Option String) (msg : Message) (kp : Keypair) (eph : Nat)
    (hres : getStoredKeypairForUser pw (if pw.isSome then db else none) localKp
      = .ok (some kp))
    (hsend : msg.sender ≠ uid)
    (heph : msg.ephemeral_pubkey = some eph)
    (hlen : (jsSplit msg.ciphertext).length ≠ 2) :
    decryptMessageScreen uid pw db localKp seed cache msg
      = ⟨⟨"[Decryption failed]", true⟩, none, none, 0⟩ := by
  unfold decryptMessageScreen
  rw [hres, heph]
  rcases hsp : jsSplit msg.ciphertext with - | ⟨x, xs⟩
  · simp [hsend, hsp]
  · rcases xs with - | ⟨y, ys⟩
    · simp [hsend, hsp]
    · rcases ys with - | ⟨z, zs⟩
      · exact absurd (by simp [hsp]) hlen
      · simp [hsend, hsp]

theorem decryptScreen_sender_reject (uid : Nat) (pw : Option String)
    (db : Option DbUser) (localKp : Option Keypair) (seed : Nat)
    (cache : Nat → Option String) (msg : Message) (kp : Keypair) (cs : String)
    (ephS : Nat)
    (hres : getStoredKeypairForUser pw (if pw.isSome then db else none) localKp
      = .ok (some kp))
    (hsend : msg.sender = uid)
    (hcache : cache msg.id = none)
    (hcs : msg.ciphertext_sender = some cs)
    (hnempty : cs ≠ "")
    (heph : msg.ephemeral_pubkey_sender = some ephS)
    (hlen : (jsSplit cs).length ≠ 2) :
    decryptMessageScreen uid pw db localKp seed cache msg
      = ⟨⟨"[Decryption failed]", true⟩, none, none, 0⟩ := by
  unfold decryptMessageScreen
  rw [hres, hsend, hcache, hcs, heph]
  rcases hsp : jsSplit cs with - | ⟨x, xs⟩
  · simp [hnempty, hsp]
  · rcases xs with - | ⟨y, ys⟩
    · simp [hnempty, hsp]
    · rcases ys with - | ⟨z, zs⟩
      · exact absurd (by simp [hsp]) hlen
      · simp [hnempty, hsp]

/-- C5: a sent message stores two envelopes of the identical plaintext under
independent ephemeral keypairs; the sender recovers the plaintext through the
sender envelope with their private key, the recipient through the recipient
envelope with theirs, and (given distinct random nonces and distinct
ephemeral public keys) the two envelopes' ciphertexts, nonces, and ephemeral
public keys are not bit-identical. -/
theorem claim_C5_dual_envelope (a b e1 e2 n1 n2 idA idB msgId : Nat) (P : String)
    (hid : idA ≠ idB) (hn : n1 ≠ n2) (he : pubOf e1 ≠ pubOf e2) :
    (decryptMessageScreen idA none none (some (kpOf a)) 0 (fun _ => none)
        (sendMessageRecord msgId idA (pubOf b) (pubOf a) P e1 n1 e2 n2)).item
      = ⟨P, false⟩
    ∧ (decryptMessageScreen idB none none (some (kpOf b)) 0 (fun _ => none)
        (sendMessageRecord msgId idA (pubOf b) (pubOf a) P e1 n1 e2 n2)).item
      = ⟨P, false⟩
    ∧ (encryptMessageWithEphemeral (pubOf b) P e1 n1).ciphertext
        ≠ (encryptMessageWithEphemeral (pubOf a) P e2 n2).ciphertext
    ∧ (encryptMessageWithEphemeral (pubOf b) P e1 n1).nonce
        ≠ (encryptMessageWithEphemeral (pubOf a) P e2 n2).nonce
    ∧ (encryptMessageWithEphemeral (pubOf b) P e1 n1).ephemeralPublicKey
        ≠ (encryptMessageWithEphemeral (pubOf a) P e2 n2).ephemeralPublicKey := by
  refine ⟨?_, ?_, ?_, ?_, ?_⟩
  · rw [decryptScreen_sender idA none none (some (kpOf a)) 0 (fun _ => none)
      (sendMessageRecord msgId idA (pubOf b) (pubOf a) P e1 n1 e2 n2) (kpOf a)
      (encB64 (secretboxN (strToNat P) n2 (deriveSharedKey e2 (pubOf a)))
        ++ ":" ++ encB64 n2)
      (pubOf e2)
      (encB64 (secretboxN (strToNat P) n2 (deriveSharedKey e2 (pubOf a))))
      (encB64 n2)
      rfl rfl rfl rfl (join_ne_empty _ _) (jsSplit_join _ _) rfl]
    have hdec : decryptMessageWithEphemeral (kpOf a).privateKey (pubOf e2)
        (encB64 (secretboxN (strToNat P) n2 (deriveSharedKey e2 (pubOf a))))
        (encB64 n2) = .ok P := decryptWithEphemeral_enc a P e2 n2
    rw [hdec]
  · rw [decryptScreen_recipient idB none none (some (kpOf b)) 0 (fun _ => none)
      (sendMessageRecord msgId idA (pubOf b) (pubOf a) P e1 n1 e2 n2) (kpOf b)
      (pubOf e1)
      (encB64 (secretboxN (strToNat P) n1 (deriveSharedKey e1 (pubOf b))))
      (encB64 n1)
      rfl hid rfl (jsSplit_join _ _)]
    have hdec : decryptMessageWithEphemeral (kpOf b).privateKey (pubOf e1)
        (encB64 (secretboxN (strToNat P) n1 (deriveSharedKey e1 (pubOf b))))
        (encB64 n1) = .ok P := decryptWithEphemeral_enc b P e1 n1
    rw [hdec]
  · intro h
    have h' : encB64 (secretboxN (strToNat P) n1 (deriveSharedKey e1 (pubOf b)))
        = encB64 (secretboxN (strToNat P) n2 (deriveSharedKey e2 (pubOf a))) := h
    have h2 := encB64_inj h'
    simp [secretboxN, Nat.pair_eq_pair] at h2
    exact hn h2.2
  · intro h
    have h' : encB64 n1 = encB64 n2 := h
    exact hn (encB64_inj h')
  · intro h
    have h' : (some (pubOf e1) : Option Nat) = some (pubOf e2) := h
    exact he (Option.some.inj h')

/-- Witness for C5 at concrete identities, seeds and nonces. -/
theorem claim_C5_dual_envelope_witness :
    (0 : Nat) ≠ 1 ∧ (10 : Nat) ≠ 11 ∧ pubOf 4 ≠ pubOf 5
    ∧ ((decryptMessageScreen 0 none none (some (kpOf 2)) 0 (fun _ => none)
        (sendMessageRecord 7 0 (pubOf 3) (pubOf 2) "hi" 4 10 5 11)).item
      = ⟨"hi", false⟩
    ∧ (decryptMessageScreen 1 none none (some (kpOf 3)) 0 (fun _ => none)
        (sendMessageRecord 7 0 (pubOf 3) (pubOf 2) "hi" 4 10 5 11)).item
      = ⟨"hi", false⟩
    ∧ (encryptMessageWithEphemeral (pubOf 3) "hi" 4 10).ciphertext
        ≠ (encryptMessageWithEphemeral (pubOf 2) "hi" 5 11).ciphertext
    ∧ (encryptMessageWithEphemeral (pubOf 3) "hi" 4 10).nonce
        ≠ (encryptMessageWithEphemeral (pubOf 2) "hi" 5 11).nonce
    ∧ (encryptMessageWithEphemeral (pubOf 3) "hi" 4 10).ephemeralPublicKey
        ≠ (encryptMessageWithEphemeral (pubOf 2) "hi" 5 11).ephemeralPublicKey) :=
  ⟨by decide, by decide, by decide,
    claim_C5_dual_envelope 2 3 4 5 10 11 0 1 7 "hi"
      (by decide) (by decide) (by decide)⟩

/-- C8: a stored ciphertext field (recipient or sender copy) whose
colon-separated split does not yield exactly two parts is rejected before any
symmetric open is attempted on it (`openCalls = 0`), and the message renders
as the decryption-failed placeholder while the function still returns an item
for the conversation. -/
theorem claim_C8_malformed (uid : Nat) (pw : Option String) (db : Option DbUser)
    (localKp : Option Keypair) (seed : Nat) (cache : Nat → Option String)
    (msg : Message) (kp : Keypair)
    (hres : getStoredKeypairForUser pw (if pw.isSome then db else none) localKp
      = .ok (some kp)) :
    (msg.sender ≠ uid → msg.ephemeral_pubkey.isSome
      → (jsSplit msg.ciphertext).length ≠ 2
      → decryptMessageScreen uid pw db localKp seed cache msg
        = ⟨⟨"[Decryption failed]", true⟩, none, none, 0⟩)
    ∧ (msg.sender = uid → cache msg.id = none
      → ∀ cs, msg.ciphertext_sender = some cs → cs ≠ ""
      → msg.ephemeral_pubkey_sender.isSome
      → (jsSplit cs).length ≠ 2
      → decryptMessageScreen uid pw db localKp seed cache msg
        = ⟨⟨"[Decryption failed]", true⟩, none, none, 0⟩) := by
  constructor
  · intro h1 h2 h3
    obtain ⟨eph, heph⟩ := Option.isSome_iff_exists.mp h2
    exact decryptScreen_recipient_reject uid pw db localKp seed cache msg kp eph
      hres h1 heph h3
  · intro h1 h2 cs hcs hne h3 h4
    obtain ⟨ephS, hephS⟩ := Option.isSome_iff_exists.mp h3
    exact decryptScreen_sender_reject uid pw db localKp seed cache msg kp cs ephS
      hres h1 h2 hcs hne hephS h4

/-- Witness for C8: a one-part recipient field and a three-part sender field
are both rejected with zero symmetric open calls. -/
theorem claim_C8_malformed_witness :
    (jsSplit "abc").length ≠ 2
    ∧ decryptMessageScreen 1 none none (some (kpOf 3)) 0 (fun _ => none)
        ⟨0, 0, "abc", some 5, none, none⟩
      = ⟨⟨"[Decryption failed]", true⟩, none, none, 0⟩
    ∧ (jsSplit "x:y:z").length ≠ 2
    ∧ decryptMessageScreen 1 none none (some (kpOf 3)) 0 (fun _ => none)
        ⟨1, 1, "q", some 5, some "x:y:z", some 7⟩
      = ⟨⟨"[Decryption failed]", true⟩, none, none, 0⟩ :=
  ⟨by decide,
    (claim_C8_malformed 1 none none (some (kpOf 3)) 0 (fun _ => none)
      ⟨0, 0, "abc", some 5, none, none⟩ (kpOf 3) rfl).1
      (by decide) (by decide) (by decide),
    by decide,
    (claim_C8_malformed 1 none none (some (kpOf 3)) 0 (fun _ => none)
      ⟨1, 1, "q", some 5, some "x:y:z", some 7⟩ (kpOf 3) rfl).2
      rfl rfl "x:y:z" rfl (by decide) (by decide) (by decide)⟩
